import Mathlib

/-!
Verification development for the telemetry instrumentation library
(`tracingDecorator.ts` and the `Metrics` class).  The tracing backend and
metrics backend are modelled explicitly; every definition mirrors the
corresponding source function.
-/

namespace Telemetry

/-- JavaScript-like scalar values used for span attributes and metric labels. -/
inductive LVal where
  | str (s : String)
  | num (n : Int)
  | bool (b : Bool)
  | undefined
  deriving DecidableEq, Repr

/-- JavaScript truthiness of an `LVal` (used by `if (!x)` checks in the source). -/
def LVal.truthy : LVal → Bool
  | .str s => s ≠ ""
  | .num n => n ≠ 0
  | .bool b => b
  | .undefined => false

/-- A JavaScript object of scalar values, as an insertion-ordered association list. -/
abbrev AttrMap := List (String × LVal)

/-- Property read `m[k]`: a missing key reads as `undefined`. -/
def getAttr (m : AttrMap) (k : String) : LVal :=
  match m.lookup k with
  | some v => v
  | none => .undefined

/-- Property write `m[k] = v`: replace in place if present, else append. -/
def setAttr (m : AttrMap) (k : String) (v : LVal) : AttrMap :=
  if m.any (fun p => p.1 = k) then
    m.map (fun p => if p.1 = k then (k, v) else p)
  else
    m ++ [(k, v)]

/-- Object spread `{ ...base, ...upd }`: later keys override earlier ones. -/
def objAssign (base upd : AttrMap) : AttrMap :=
  upd.foldl (fun m p => setAttr m p.1 p.2) base

/-- The span context of a span: its trace id and span id (`Span.spanContext()`). -/
structure SpanCtx where
  traceId : Nat
  spanId : Nat
  deriving DecidableEq, Repr

/-- OpenTelemetry `SpanOptions` as consumed by the code: attributes
(`undefined` when absent), the `root` flag and `links`. -/
structure SpanOpts where
  attributes : Option AttrMap := none
  root : Bool := false
  links : List SpanCtx := []
  deriving DecidableEq, Repr

/-- The attribute key written by `Traces._setSamplingRule`. -/
def samplingKey : String := "otel.collector.sampling.keep"

/-- Model of `Traces._setSamplingRule` (value level, from `tracingDecorator.ts`):
if the options object is missing it is replaced by `{ attributes: {} }`;
a missing `attributes` object is replaced by `{}`; and if the sampling key
is not truthy it is overwritten with `false`. -/
def setSamplingRule (spanOption : Option SpanOpts) : SpanOpts :=
  let o := match spanOption with
    | none => ({ attributes := some [] } : SpanOpts)
    | some o => o
  let o := match o.attributes with
    | none => { o with attributes := some [] }
    | some _ => o
  let attrs := o.attributes.getD []
  if (getAttr attrs samplingKey).truthy then o
  else { o with attributes := some (setAttr attrs samplingKey (.bool false)) }

/-- A span as created by the tracing backend: its name, the attributes it was
started with, its root flag, its links and its identity. -/
structure Span where
  name : String
  attrs : AttrMap
  root : Bool
  links : List SpanCtx
  ctx : SpanCtx
  deriving DecidableEq, Repr

/-- The tracing backend's ambient state: the active span of `context.active()`
and a fresh-id supply.  All ids of existing spans are assumed below `fresh`. -/
structure TracerEnv where
  active : Option Span
  fresh : Nat
  deriving Repr

/-- Backend `tracer.startSpan(name, opts)`: allocates a fresh span id; the
trace id is fresh when `opts.root` is set, otherwise inherited from the
ambient active span (fresh again when none is active). -/
def startSpan (env : TracerEnv) (name : String) (opts : SpanOpts) : Span × TracerEnv :=
  let sid := env.fresh
  let tid :=
    if opts.root then env.fresh + 1
    else
      match env.active with
      | some a => a.ctx.traceId
      | none => env.fresh + 1
  (⟨name, opts.attributes.getD [], opts.root, opts.links, ⟨tid, sid⟩⟩,
   { env with fresh := env.fresh + 2 })

/-- Span parenting strategy (`StartMode` in the source). -/
inductive StartMode where
  | reuse
  | createChild
  | newTrace
  | newTraceWithLink
  deriving DecidableEq, Repr

/-- The `{ span, createdSpan }` result of `Traces.getSpan` and
`Traces.getCurrentSpanOrCreateNew`. -/
structure GetSpanRes where
  span : Span
  createdSpan : Bool
  deriving DecidableEq, Repr

/-- The body of `Traces.getSpan` after `_setSamplingRule` has produced `opts`:
`reuse` returns the active span when present; `newTrace` starts a root span;
`newTraceWithLink` starts a root span linked to the active span when present;
all remaining cases start a plain span. -/
def getSpanWithOpts (env : TracerEnv) (spanName : String) (opts : SpanOpts)
    (mode : StartMode) : GetSpanRes × TracerEnv :=
  match mode with
  | .reuse =>
    match env.active with
    | some active => (⟨active, false⟩, env)
    | none =>
      let p := startSpan env spanName opts
      (⟨p.1, true⟩, p.2)
  | .newTrace =>
    let p := startSpan env spanName { opts with root := true }
    (⟨p.1, true⟩, p.2)
  | .newTraceWithLink =>
    match env.active with
    | some active =>
      let p := startSpan env spanName
        { opts with root := true, links := [active.ctx] }
      (⟨p.1, true⟩, p.2)
    | none =>
      let p := startSpan env spanName { opts with root := true }
      (⟨p.1, true⟩, p.2)
  | .createChild =>
    let p := startSpan env spanName opts
    (⟨p.1, true⟩, p.2)

/-- Model of `Traces.getSpan(spanName, options, mode)` from `tracingDecorator.ts`. -/
def getSpan (env : TracerEnv) (spanName : String) (options : Option SpanOpts)
    (mode : StartMode) : GetSpanRes × TracerEnv :=
  getSpanWithOpts env spanName (setSamplingRule options) mode

/-- Model of `Traces.getCurrentSpanOrCreateNew(spanName, options, createNewSpan)`:
reuses the active span unless `createNewSpan` is set or no span is active. -/
def getCurrentSpanOrCreateNew (env : TracerEnv) (spanName : String)
    (options : Option SpanOpts) (createNewSpan : Bool) : GetSpanRes × TracerEnv :=
  let opts := setSamplingRule options
  match env.active with
  | some s =>
    if createNewSpan then
      let p := startSpan env spanName opts
      (⟨p.1, true⟩, p.2)
    else (⟨s, false⟩, env)
  | none =>
    let p := startSpan env spanName opts
    (⟨p.1, true⟩, p.2)

/-- A thrown JavaScript error: its `name` (possibly absent), plus an identity
tag so that "the same error object is propagated" is expressible. -/
structure JsErr where
  name : Option String
  tag : Nat := 0
  deriving DecidableEq, Repr

/-- The behaviour of one invocation of the original callable: return a
non-thenable value, throw synchronously, or return a promise that later
resolves or rejects. -/
inductive CallOutcome (α : Type) where
  | sync (v : α)
  | syncThrow (e : JsErr)
  | asyncOk (v : α)
  | asyncErr (e : JsErr)
  deriving DecidableEq, Repr

/-- What the wrapper hands back to its caller: a plain value, a synchronously
raised error, or a promise that resolves/rejects. -/
inductive WrapResult (α : Type) where
  | value (v : α)
  | thrown (e : JsErr)
  | promiseOk (v : α)
  | promiseErr (e : JsErr)
  deriving DecidableEq, Repr

/-- Observable events of one invocation of a tracing wrapper, in order:
gating-predicate evaluation, span acquisition via `getSpan`, invocation of the
original callable, `span.setStatus`, `span.recordException`, `span.end()`, and
the settlement of the wrapper's own returned value/promise. -/
inductive TEv where
  | predEval
  | spanObtained (created : Bool)
  | invokeFn
  | setStatus (ok : Bool)
  | recordEx
  | spanEnd
  | outerSettled
  deriving DecidableEq, Repr

/-- Result of running the tracing wrapper once. -/
structure TRun (α : Type) where
  result : WrapResult α
  events : List TEv
  created : Bool
  env : TracerEnv

/-- One invocation of the wrapper produced by `Traces.withTracing`
(`tracingDecorator.ts`): evaluate the gating predicate; if false, call the
original unwrapped (coercing a successful sync result to a promise in legacy
mode — a sync throw escapes before the coercion line runs); otherwise obtain a
span via `getSpan`, invoke the original with that span active, set
status/record exception on settlement, end the span via the guarded `endSpan`
(only when `createdSpan`), and return/settle afterwards.  `legacy` is
`getTracingMode() === 'legacy-always-promise'`; `shouldTrace` is the evaluated
`traceOnlyIf`. -/
def withTracingRun {α : Type} (legacy shouldTrace : Bool) (mode : StartMode)
    (env : TracerEnv) (spanName : String) (attrs : AttrMap)
    (outcome : CallOutcome α) : TRun α :=
  if !shouldTrace then
    match outcome with
    | .sync v =>
      ⟨if legacy then .promiseOk v else .value v,
       [.predEval, .invokeFn, .outerSettled], false, env⟩
    | .syncThrow e =>
      ⟨.thrown e, [.predEval, .invokeFn, .outerSettled], false, env⟩
    | .asyncOk v =>
      ⟨.promiseOk v, [.predEval, .invokeFn, .outerSettled], false, env⟩
    | .asyncErr e =>
      ⟨.promiseErr e, [.predEval, .invokeFn, .outerSettled], false, env⟩
  else
    let gs := getSpan env spanName (some { attributes := some attrs }) mode
    let created := gs.1.createdSpan
    let endEvs : List TEv := if created then [.spanEnd] else []
    match outcome with
    | .sync v =>
      ⟨if legacy then .promiseOk v else .value v,
       [.predEval, .spanObtained created, .invokeFn, .setStatus true]
         ++ endEvs ++ [.outerSettled], created, gs.2⟩
    | .syncThrow e =>
      ⟨if legacy then .promiseErr e else .thrown e,
       [.predEval, .spanObtained created, .invokeFn, .setStatus false, .recordEx]
         ++ endEvs ++ [.outerSettled], created, gs.2⟩
    | .asyncOk v =>
      ⟨.promiseOk v,
       [.predEval, .spanObtained created, .invokeFn, .setStatus true]
         ++ endEvs ++ [.outerSettled], created, gs.2⟩
    | .asyncErr e =>
      ⟨.promiseErr e,
       [.predEval, .spanObtained created, .invokeFn, .setStatus false, .recordEx]
         ++ endEvs ++ [.outerSettled], created, gs.2⟩

/-- Expression from the source, written there as the error name with an
unknown-error fallback (`Metrics._wrapWithCounter`):
the error's name when present and non-empty, else `"unknown_error"`. -/
def errLabel (e : JsErr) : String :=
  match e.name with
  | some n => if n = "" then "unknown_error" else n
  | none => "unknown_error"

/-- Observable events of one invocation of a counter-wrapped callable:
assignment of the `error` label, the single `counter.inc(labels)`, and the
settlement of the wrapper's returned value/promise. -/
inductive MEv where
  | labelErrorSet (v : String)
  | incCounter (labels : AttrMap)
  | outerSettled
  deriving DecidableEq, Repr

/-- Result of running the counter wrapper once. -/
structure CRun (α : Type) where
  result : WrapResult α
  events : List MEv

/-- One invocation of the wrapper produced by `Metrics._wrapWithCounter`
(`Metrics` class): labels are `{ ...static, ...dynamic, error: 'none' }`; on a
sync result the counter is incremented and the value returned; on a sync throw
the `error` label is reassigned, the counter incremented and the error
rethrown; on a promise, `.catch` reassigns the label and rethrows while
`.finally` increments before the outer promise settles. -/
def wrapWithCounterRun {α : Type} (staticL dynL : AttrMap)
    (outcome : CallOutcome α) : CRun α :=
  let labels := setAttr (objAssign staticL dynL) "error" (.str "none")
  match outcome with
  | .sync v =>
    ⟨.value v, [.incCounter labels, .outerSettled]⟩
  | .syncThrow e =>
    let labels' := setAttr labels "error" (.str (errLabel e))
    ⟨.thrown e, [.labelErrorSet (errLabel e), .incCounter labels', .outerSettled]⟩
  | .asyncOk v =>
    ⟨.promiseOk v, [.incCounter labels, .outerSettled]⟩
  | .asyncErr e =>
    let labels' := setAttr labels "error" (.str (errLabel e))
    ⟨.promiseErr e, [.labelErrorSet (errLabel e), .incCounter labels', .outerSettled]⟩

/-- A converted label value (`Record<string, string | number>` in the source):
after `Metrics._convertLabels` only strings and numbers remain. -/
inductive CVal where
  | str (s : String)
  | num (n : Int)
  deriving DecidableEq, Repr

/-- Model of `Metrics._convertLabels`: drop `undefined`-valued keys and convert
booleans to the strings `"true"`/`"false"`; strings and numbers pass through. -/
def convertLabels (labels : List (String × LVal)) : List (String × CVal) :=
  labels.filterMap (fun p =>
    match p.2 with
    | .undefined => none
    | .bool b => some (p.1, .str (if b then "true" else "false"))
    | .str s => some (p.1, .str s)
    | .num n => some (p.1, .num n))

/-- Model of `Metrics._filterAllowed`: keep only the keys among the metric's declared
`labelNames`; with no declared names, everything is dropped. -/
def filterAllowed (allow : List String) (labels : List (String × CVal)) :
    List (String × CVal) :=
  if allow.isEmpty then []
  else labels.filter (fun p => allow.contains p.1)

/-- The label set a call of `Metrics.incrementCounter` records against a
metric whose instance declares `allow`: convert, then filter. -/
def incrementCounterLabels (allow : List String) (labels : List (String × LVal)) :
    List (String × CVal) :=
  filterAllowed allow (convertLabels labels)

/-- The label set recorded by `Metrics.setGauge`: convert, then filter. -/
def setGaugeLabels (allow : List String) (labels : List (String × LVal)) :
    List (String × CVal) :=
  filterAllowed allow (convertLabels labels)

/-- The label set recorded by `Metrics.observeHistogram`: convert, then filter. -/
def observeHistogramLabels (allow : List String) (labels : List (String × LVal)) :
    List (String × CVal) :=
  filterAllowed allow (convertLabels labels)

/-- The label set recorded by `Metrics.observeSummary`: convert, then filter. -/
def observeSummaryLabels (allow : List String) (labels : List (String × LVal)) :
    List (String × CVal) :=
  filterAllowed allow (convertLabels labels)

/-- The label set used by `Metrics.startGaugeTimer`: convert, then filter. -/
def startGaugeTimerLabels (allow : List String) (labels : List (String × LVal)) :
    List (String × CVal) :=
  filterAllowed allow (convertLabels labels)

/-- The label set used by `Metrics.startSummaryTimer`: convert, then filter. -/
def startSummaryTimerLabels (allow : List String) (labels : List (String × LVal)) :
    List (String × CVal) :=
  filterAllowed allow (convertLabels labels)

/-- A registered metric configuration (the fields the claims touch). -/
structure MCfg where
  help : String
  labelNames : List String
  deriving DecidableEq, Repr

/-- A materialized backend metric instance, carrying an allocation identity. -/
structure MInst where
  id : Nat
  deriving DecidableEq, Repr

/-- The static state of the `Metrics` class: four registration/config maps,
four instance maps, the names present in the global `register`, and a
fresh-id supply for newly materialized instances. -/
structure MetricsState where
  counterConfigs : List (String × MCfg)
  gaugeConfigs : List (String × MCfg)
  histogramConfigs : List (String × MCfg)
  summaryConfigs : List (String × MCfg)
  counters : List (String × MInst)
  gauges : List (String × MInst)
  histograms : List (String × MInst)
  summaries : List (String × MInst)
  register : List String
  fresh : Nat
  deriving Repr

/-- Model of `Metrics.clear()`: clears the global register and the counter, gauge and
histogram instance maps — nothing else. -/
def Metrics.clear (s : MetricsState) : MetricsState :=
  { s with register := [], counters := [], gauges := [], histograms := [] }

/-- Model of `Metrics.getSummary(name)`: returns the cached summary instance, first
materializing one from the registered configuration (`new Summary(config)`,
which also registers it globally) when no instance exists yet. -/
def Metrics.getSummary (s : MetricsState) (metricName : String) :
    Option MInst × MetricsState :=
  match s.summaries.lookup metricName with
  | some inst => (some inst, s)
  | none =>
    match s.summaryConfigs.lookup metricName with
    | some _ =>
      let inst : MInst := ⟨s.fresh⟩
      (some inst,
       { s with summaries := s.summaries ++ [(metricName, inst)],
                register := metricName :: s.register,
                fresh := s.fresh + 1 })
    | none => (none, s)

/-- Total list read with default (heap cell lookup). -/
def listGet {β : Type} (d : β) : List β → Nat → β
  | [], _ => d
  | x :: _, 0 => x
  | _ :: xs, n + 1 => listGet d xs n

/-- Total list update (heap cell store); out-of-range writes are dropped. -/
def listSet {β : Type} : List β → Nat → β → List β
  | [], _, _ => []
  | _ :: xs, 0, v => v :: xs
  | x :: xs, n + 1, v => x :: listSet xs n v

/-- A `SpanOptions` object on the heap: a reference to its `attributes`
object, or `none` when `attributes` is missing, plus the remaining fields. -/
structure OptObjH where
  attributesRef : Option Nat
  root : Bool := false
  links : List SpanCtx := []
  deriving Repr

/-- An explicit heap of `SpanOptions` objects and attribute objects, so that
the in-place mutation performed by `_setSamplingRule` is observable through
the caller's references. -/
structure Store where
  opts : List OptObjH
  attrs : List AttrMap
  deriving Repr

/-- Read the options object behind a reference. -/
def readOpt (st : Store) (r : Nat) : OptObjH :=
  listGet ⟨none, false, []⟩ st.opts r

/-- Read the attribute object behind a reference. -/
def readAttrs (st : Store) (a : Nat) : AttrMap :=
  listGet [] st.attrs a

/-- The sampling-key value visible through the caller's options reference. -/
def readKeep (st : Store) (r : Nat) : LVal :=
  match (readOpt st r).attributesRef with
  | some a => getAttr (readAttrs st a) samplingKey
  | none => .undefined

/-- Model of `Traces._setSamplingRule` at the heap level: when the caller passed no
options object, fresh `{ attributes: {} }` objects are allocated; when the
caller's object exists, a missing `attributes` object is allocated and
assigned onto it in place, and a non-truthy sampling key is overwritten with
`false` directly inside the caller's attributes object.  Returns the
reference of the (same, when supplied) options object. -/
def setSamplingRuleH (st : Store) (r : Option Nat) : Nat × Store :=
  match r with
  | none =>
    let aRef := st.attrs.length
    let st1 : Store := { st with attrs := st.attrs ++ [[]] }
    let oRef := st1.opts.length
    let st2 : Store := { st1 with opts := st1.opts ++ [⟨some aRef, false, []⟩] }
    let m := readAttrs st2 aRef
    if (getAttr m samplingKey).truthy then (oRef, st2)
    else (oRef, { st2 with attrs := listSet st2.attrs aRef
                             (setAttr m samplingKey (.bool false)) })
  | some oRef =>
    let o := readOpt st oRef
    let p : Nat × Store :=
      match o.attributesRef with
      | some a => (a, st)
      | none =>
        let a := st.attrs.length
        (a, { st with attrs := st.attrs ++ [[]],
                      opts := listSet st.opts oRef { o with attributesRef := some a } })
    let aRef := p.1
    let st1 := p.2
    let m := readAttrs st1 aRef
    if (getAttr m samplingKey).truthy then (oRef, st1)
    else (oRef, { st1 with attrs := listSet st1.attrs aRef
                             (setAttr m samplingKey (.bool false)) })

/-- Project the options object behind a reference to a value-level
`SpanOpts` for the remainder of `getSpan`. -/
def readSpanOpts (st : Store) (r : Nat) : SpanOpts :=
  let o := readOpt st r
  { attributes := o.attributesRef.map (readAttrs st), root := o.root, links := o.links }

/-- Model of `Traces.getSpan` at the heap level: first `_setSamplingRule` mutates the
caller's options in place, then the span is resolved exactly as in
`getSpanWithOpts`. -/
def getSpanH (st : Store) (env : TracerEnv) (spanName : String)
    (r : Option Nat) (mode : StartMode) : GetSpanRes × TracerEnv × Store :=
  let q := setSamplingRuleH st r
  let p := getSpanWithOpts env spanName (readSpanOpts q.2 q.1) mode
  (p.1, p.2, q.2)

/-- Model of `Traces.getCurrentSpanOrCreateNew` at the heap level: `_setSamplingRule`
runs (and mutates) unconditionally, before the reuse-or-create decision. -/
def getCurrentSpanOrCreateNewH (st : Store) (env : TracerEnv) (spanName : String)
    (r : Option Nat) (createNewSpan : Bool) : GetSpanRes × TracerEnv × Store :=
  let q := setSamplingRuleH st r
  let opts := readSpanOpts q.2 q.1
  match env.active with
  | some s =>
    if createNewSpan then
      let p := startSpan env spanName opts
      (⟨p.1, true⟩, p.2, q.2)
    else (⟨s, false⟩, env, q.2)
  | none =>
    let p := startSpan env spanName opts
    (⟨p.1, true⟩, p.2, q.2)

/-- Settlement side effects on the span: `setStatus` or `recordException`. -/
def TEv.isSideEffect : TEv → Bool
  | .setStatus _ => true
  | .recordEx => true
  | _ => false

/-- Lifecycle release on the span: `span.end()`. -/
def TEv.isEnd : TEv → Bool
  | .spanEnd => true
  | _ => false

/-- Settlement of the wrapper's own returned value/promise. -/
def TEv.isSettled : TEv → Bool
  | .outerSettled => true
  | _ => false

/-- Any event touching a span object. -/
def TEv.isSpanTouch : TEv → Bool
  | .spanObtained _ => true
  | .setStatus _ => true
  | .recordEx => true
  | .spanEnd => true
  | _ => false

/-- The gating-predicate evaluation event. -/
def TEv.isPred : TEv → Bool
  | .predEval => true
  | _ => false

/-- The `error`-label assignment event of the counter wrapper. -/
def MEv.isLabelSet : MEv → Bool
  | .labelErrorSet _ => true
  | _ => false

/-- The `counter.inc` event of the counter wrapper. -/
def MEv.isInc : MEv → Bool
  | .incCounter _ => true
  | _ => false

/-- Settlement of the counter wrapper's returned value/promise. -/
def MEv.isSettled : MEv → Bool
  | .outerSettled => true
  | _ => false

/-- Observable events of one invocation of a gauge/histogram/summary-wrapped
callable: timer start (`startTimer`), assignment of the `error` label
(histograms only), timer stop (`endTimer()`, which records the duration),
a numeric value write (`gauge.set` / `summary.observe` in untimed mode), and
the settlement of the wrapper's returned value/promise. -/
inductive GEv where
  | timerStart (labels : AttrMap)
  | labelErrorSet (v : String)
  | timerStop
  | valueWrite (labels : AttrMap)
  | outerSettled
  deriving DecidableEq, Repr

/-- One invocation of the wrapper produced by `Metrics._wrapWithGauge`
(`Metrics` class): labels are `{ ...static, ...dynamic }`; in timed mode a
timer starts at entry and `endTimer()` runs at settlement (a no-op closure
otherwise); in untimed mode a numeric settled value is written with
`gauge.set`; errors pass through unchanged and `endTimer()` always precedes
the wrapper's own settlement (`.then`/`.catch` handlers run it before the
chained promise settles). -/
def wrapWithGaugeRun {α : Type} (timed : Bool) (isNumber : α → Bool)
    (staticL dynL : AttrMap) (outcome : CallOutcome α) :
    WrapResult α × List GEv :=
  let labels := objAssign staticL dynL
  let startEvs : List GEv := if timed then [.timerStart labels] else []
  let stopEvs : List GEv := if timed then [.timerStop] else []
  match outcome with
  | .sync v =>
    (.value v,
     startEvs ++ stopEvs
       ++ (if !timed && isNumber v then [.valueWrite labels] else [])
       ++ [.outerSettled])
  | .syncThrow e =>
    (.thrown e, startEvs ++ stopEvs ++ [.outerSettled])
  | .asyncOk v =>
    (.promiseOk v,
     startEvs ++ stopEvs
       ++ (if !timed && isNumber v then [.valueWrite labels] else [])
       ++ [.outerSettled])
  | .asyncErr e =>
    (.promiseErr e, startEvs ++ stopEvs ++ [.outerSettled])

/-- One invocation of the wrapper produced by `Metrics._wrapWithHistogram`
(`Metrics` class): labels are `{ ...static, ...dynamic, error: 'none' }`; a
timer always starts at entry; on failure the `error` label is reassigned
before `endTimer()` records the duration; the value or error then propagates
as the wrapper settles. -/
def wrapWithHistogramRun {α : Type} (staticL dynL : AttrMap)
    (outcome : CallOutcome α) : WrapResult α × List GEv :=
  let labels := setAttr (objAssign staticL dynL) "error" (.str "none")
  match outcome with
  | .sync v =>
    (.value v, [.timerStart labels, .timerStop, .outerSettled])
  | .syncThrow e =>
    (.thrown e,
     [.timerStart labels, .labelErrorSet (errLabel e), .timerStop, .outerSettled])
  | .asyncOk v =>
    (.promiseOk v, [.timerStart labels, .timerStop, .outerSettled])
  | .asyncErr e =>
    (.promiseErr e,
     [.timerStart labels, .labelErrorSet (errLabel e), .timerStop, .outerSettled])

/-- One invocation of the wrapper produced by `Metrics._wrapWithSummary`
(`Metrics` class): identical control flow to the gauge wrapper, with the
untimed numeric write going to `summary.observe`. -/
def wrapWithSummaryRun {α : Type} (timed : Bool) (isNumber : α → Bool)
    (staticL dynL : AttrMap) (outcome : CallOutcome α) :
    WrapResult α × List GEv :=
  let labels := objAssign staticL dynL
  let startEvs : List GEv := if timed then [.timerStart labels] else []
  let stopEvs : List GEv := if timed then [.timerStop] else []
  match outcome with
  | .sync v =>
    (.value v,
     startEvs ++ stopEvs
       ++ (if !timed && isNumber v then [.valueWrite labels] else [])
       ++ [.outerSettled])
  | .syncThrow e =>
    (.thrown e, startEvs ++ stopEvs ++ [.outerSettled])
  | .asyncOk v =>
    (.promiseOk v,
     startEvs ++ stopEvs
       ++ (if !timed && isNumber v then [.valueWrite labels] else [])
       ++ [.outerSettled])
  | .asyncErr e =>
    (.promiseErr e, startEvs ++ stopEvs ++ [.outerSettled])

/-- The `error`-label assignment event of a timer wrapper. -/
def GEv.isLabelSet : GEv → Bool
  | .labelErrorSet _ => true
  | _ => false

/-- The timer-stop event (`endTimer()`) of a timer wrapper. -/
def GEv.isStop : GEv → Bool
  | .timerStop => true
  | _ => false

/-- The untimed numeric metric write of a gauge/summary wrapper. -/
def GEv.isWrite : GEv → Bool
  | .valueWrite _ => true
  | _ => false

/-- Settlement of a timer wrapper's returned value/promise. -/
def GEv.isSettled : GEv → Bool
  | .outerSettled => true
  | _ => false

/-- Predicate `allBefore p q l`: holds when every `p`-event of `l` occurs strictly
before every `q`-event of `l`. -/
def allBefore {β : Type} (p q : β → Bool) : List β → Bool
  | [] => true
  | e :: rest => if q e then rest.all (fun x => !(p x)) else allBefore p q rest

/-- The labels of the first `counter.inc` event of a run (or `[]`). -/
def firstIncLabels : List MEv → AttrMap
  | [] => []
  | .incCounter l :: _ => l
  | _ :: rest => firstIncLabels rest

/-- The sampling-key value the caller supplied inside their options, as read
by `_setSamplingRule` (`undefined` when absent at any level). -/
def suppliedKeep (o : Option SpanOpts) : LVal :=
  match o with
  | some oo => getAttr (oo.attributes.getD []) samplingKey
  | none => .undefined

/-- The links the caller supplied inside their options (none when absent). -/
def suppliedLinks (o : Option SpanOpts) : List SpanCtx :=
  match o with
  | some oo => oo.links
  | none => []

/-- Precondition of the mutation claim: the caller's options reference is
valid and the sampling key is absent through it (so the write is observable). -/
def keepUnsetB (st : Store) (r : Nat) : Bool :=
  decide (r < st.opts.length) &&
    (match (readOpt st r).attributesRef with
     | none => true
     | some a =>
       decide (a < st.attrs.length) &&
         decide (getAttr (readAttrs st a) samplingKey = .undefined))

/-! ### Helper lemmas about the object model -/

theorem lookup_map_replace (k : String) (v : LVal) :
    ∀ m : AttrMap, m.any (fun p => p.1 = k) = true →
      (m.map (fun p => if p.1 = k then (k, v) else p)).lookup k = some v := by
  intro m
  induction m with
  | nil => intro h; simp at h
  | cons hd tl ih =>
    obtain ⟨k1, v1⟩ := hd
    intro h
    by_cases hk : k1 = k
    · subst hk
      have hc : ((k1, v1).1 = k1) := rfl
      rw [List.map_cons, if_pos hc]
      simp [List.lookup]
    · simp only [List.any_cons, decide_eq_true_eq, Bool.or_eq_true] at h
      rcases h with h | h
      · exact absurd h hk
      · have hbeq : (k == k1) = false := by
          simp only [beq_eq_false_iff_ne, ne_eq]
          exact fun he => hk he.symm
        simp only [List.map_cons]
        rw [if_neg hk]
        simp only [List.lookup, hbeq]
        exact ih h

theorem lookup_append_of_not_any (k : String) (l : AttrMap) :
    ∀ m : AttrMap, m.any (fun p => p.1 = k) = false →
      (m ++ l).lookup k = l.lookup k := by
  intro m
  induction m with
  | nil => intro _; rfl
  | cons hd tl ih =>
    obtain ⟨k1, v1⟩ := hd
    intro h
    simp only [List.any_cons, Bool.or_eq_false_iff, decide_eq_false_iff_not] at h
    have hbeq : (k == k1) = false := by
      simp only [beq_eq_false_iff_ne, ne_eq]
      exact fun he => h.1 he.symm
    simp only [List.cons_append, List.lookup, hbeq]
    exact ih h.2

/-- Reading back the key just written by a JavaScript property write. -/
theorem getAttr_setAttr_self (m : AttrMap) (k : String) (v : LVal) :
    getAttr (setAttr m k v) k = v := by
  unfold setAttr getAttr
  by_cases h : m.any (fun p => p.1 = k) = true
  · rw [if_pos h, lookup_map_replace k v m h]
  · have hf : m.any (fun p => p.1 = k) = false := by
      cases hx : m.any (fun p => p.1 = k) with
      | false => rfl
      | true => exact absurd hx h
    rw [if_neg h, lookup_append_of_not_any k _ m hf]
    simp [List.lookup]

theorem listGet_append_self {β : Type} (d x : β) (l : List β) :
    listGet d (l ++ [x]) l.length = x := by
  induction l with
  | nil => rfl
  | cons hd tl ih => simpa [listGet] using ih

theorem listSet_append_self {β : Type} (v x : β) (l : List β) :
    listSet (l ++ [x]) l.length v = l ++ [v] := by
  induction l with
  | nil => rfl
  | cons hd tl ih => simpa [listSet] using ih

theorem listGet_listSet_self {β : Type} (d v : β) :
    ∀ (l : List β) (n : Nat), n < l.length → listGet d (listSet l n v) n = v := by
  intro l
  induction l with
  | nil => intro n h; simp at h
  | cons hd tl ih =>
    intro n h
    cases n with
    | zero => rfl
    | succ n =>
      simp only [listSet, listGet]
      exact ih n (by simpa using h)

/-- The sampling-key value inside the options produced by `_setSamplingRule`:
the caller's value when truthy, `false` otherwise. -/
theorem sampling_of_setSamplingRule (o : Option SpanOpts) :
    getAttr ((setSamplingRule o).attributes.getD []) samplingKey
      = if (suppliedKeep o).truthy then suppliedKeep o else .bool false := by
  cases o with
  | none =>
    simp [setSamplingRule, suppliedKeep, getAttr, LVal.truthy, getAttr_setAttr_self,
      List.lookup]
  | some oo =>
    cases h : oo.attributes with
    | none =>
      simp [setSamplingRule, suppliedKeep, h, getAttr, LVal.truthy, getAttr_setAttr_self,
        List.lookup]
    | some m =>
      simp only [setSamplingRule, suppliedKeep, h, Option.getD_some]
      by_cases ht : (getAttr m samplingKey).truthy
      · simp [ht, h]
      · simp [ht, getAttr_setAttr_self]

/-- The function `_setSamplingRule` only touches the attributes: caller links survive. -/
theorem links_of_setSamplingRule (o : Option SpanOpts) :
    (setSamplingRule o).links = suppliedLinks o := by
  cases o with
  | none => simp [setSamplingRule, suppliedLinks, getAttr, LVal.truthy, List.lookup]
  | some oo =>
    cases h : oo.attributes with
    | none =>
      simp [setSamplingRule, suppliedLinks, h, getAttr, LVal.truthy, List.lookup]
    | some m =>
      simp only [setSamplingRule, suppliedLinks, h, Option.getD_some]
      by_cases ht : (getAttr m samplingKey).truthy
      · simp [ht]
      · simp [ht]

/-- Counterexample to claim C5 as stated: with no active span,
`newTraceWithLink` keeps caller-supplied links (the spread
`{ ...opts, root: true }` retains `opts.links`), so the created span is not
link-free for a caller who passed links. -/
theorem getSpan_newTraceWithLink_counterexample :
    (getSpan ⟨none, 0⟩ "job" (some ⟨none, false, [⟨5, 6⟩]⟩)
        .newTraceWithLink).1.span.links = [⟨5, 6⟩]
    ∧ ([(⟨5, 6⟩ : SpanCtx)] ≠ ([] : List SpanCtx)) := by
  constructor
  · rfl
  · decide

/-- Claim C5 (amended): `getSpan` in `newTraceWithLink` mode: with an active
span the created span is a root with exactly one link carrying the active
span's context (caller links are discarded) and a trace id different from the
active trace id; with no active span it is a root and no link is added — its
links are exactly the caller-supplied ones, hence none when the caller
supplied none; `createdSpan` is `true` in both cases. -/
theorem getSpan_newTraceWithLink_amended (env : TracerEnv) (name : String)
    (o : Option SpanOpts) (a : Span) :
    (env.active = some a → a.ctx.traceId ≤ env.fresh →
      (getSpan env name o .newTraceWithLink).1.createdSpan = true
      ∧ (getSpan env name o .newTraceWithLink).1.span.root = true
      ∧ (getSpan env name o .newTraceWithLink).1.span.links = [a.ctx]
      ∧ (getSpan env name o .newTraceWithLink).1.span.ctx.traceId ≠ a.ctx.traceId)
    ∧ (env.active = none →
      (getSpan env name o .newTraceWithLink).1.createdSpan = true
      ∧ (getSpan env name o .newTraceWithLink).1.span.root = true
      ∧ (getSpan env name o .newTraceWithLink).1.span.links = suppliedLinks o) := by
  constructor
  · intro ha hle
    refine ⟨?_, ?_, ?_, ?_⟩
    · simp [getSpan, getSpanWithOpts, ha, startSpan]
    · simp [getSpan, getSpanWithOpts, ha, startSpan]
    · simp [getSpan, getSpanWithOpts, ha, startSpan]
    · simp [getSpan, getSpanWithOpts, ha, startSpan]
      omega
  · intro ha
    refine ⟨?_, ?_, ?_⟩ <;>
      simp [getSpan, getSpanWithOpts, ha, startSpan, links_of_setSamplingRule]

/-- Witness for C5 at a concrete environment with an active span. -/
theorem getSpan_newTraceWithLink_amended_witness :
    (getSpan ⟨some ⟨"parent", [], false, [], ⟨1, 2⟩⟩, 3⟩ "batch" none
        .newTraceWithLink).1.span.links = [⟨1, 2⟩] :=
  ((getSpan_newTraceWithLink_amended ⟨some ⟨"parent", [], false, [], ⟨1, 2⟩⟩, 3⟩
    "batch" none ⟨"parent", [], false, [], ⟨1, 2⟩⟩).1 rfl (by norm_num)).2.2.1

/-- Counterexample to claim C8 as stated: `_setSamplingRule` tests the
caller-supplied sampling attribute for truthiness, not presence, so a caller
who supplied the falsy value `0` does not get it preserved — the created
span carries `false` instead. -/
theorem samplingRule_counterexample :
    getAttr (getSpan ⟨none, 0⟩ "s"
        (some ⟨some [(samplingKey, .num 0)], false, []⟩) .createChild).1.span.attrs
        samplingKey = .bool false
    ∧ (LVal.bool false ≠ LVal.num 0) := by
  constructor
  · decide
  · decide

/-- Claim C8 (amended): every span created by `Traces.getSpan` or
`Traces.getCurrentSpanOrCreateNew` carries the sampling attribute
`otel.collector.sampling.keep`; it defaults to `false`, and a caller-supplied
truthy value is preserved unchanged, while a falsy supplied value is
overwritten with `false`. -/
theorem samplingRule_default_amended (env : TracerEnv) (name : String)
    (o : Option SpanOpts) (mode : StartMode) (createNew : Bool) :
    ((getSpan env name o mode).1.createdSpan = true →
      getAttr (getSpan env name o mode).1.span.attrs samplingKey
        = if (suppliedKeep o).truthy then suppliedKeep o else .bool false)
    ∧ ((getCurrentSpanOrCreateNew env name o createNew).1.createdSpan = true →
      getAttr (getCurrentSpanOrCreateNew env name o createNew).1.span.attrs samplingKey
        = if (suppliedKeep o).truthy then suppliedKeep o else .bool false) := by
  constructor
  · intro hc
    cases mode <;> cases ha : env.active <;>
      simp_all [getSpan, getSpanWithOpts, startSpan, sampling_of_setSamplingRule]
  · intro hc
    cases ha : env.active <;> cases createNew <;>
      simp_all [getCurrentSpanOrCreateNew, startSpan, sampling_of_setSamplingRule]

/-- Witness for C8 (amended) at a concrete call with no supplied options. -/
theorem samplingRule_default_amended_witness :
    getAttr (getSpan ⟨none, 0⟩ "w" none .createChild).1.span.attrs samplingKey
      = if (suppliedKeep none).truthy then suppliedKeep none else .bool false :=
  (samplingRule_default_amended ⟨none, 0⟩ "w" none .createChild false).1 (by decide)

/-- Claim C9: `Metrics.clear()` empties the global register and the counter,
gauge and histogram instance maps, leaves the summaries instance map and all
four configuration maps unchanged, and a summary instance materialized before
the reset is still returned by `getSummary` afterwards. -/
theorem metricsClear_frame (s : MetricsState) (n : String) (i : MInst) :
    (Metrics.clear s).summaries = s.summaries
    ∧ (Metrics.clear s).counterConfigs = s.counterConfigs
    ∧ (Metrics.clear s).gaugeConfigs = s.gaugeConfigs
    ∧ (Metrics.clear s).histogramConfigs = s.histogramConfigs
    ∧ (Metrics.clear s).summaryConfigs = s.summaryConfigs
    ∧ (Metrics.clear s).counters = []
    ∧ (Metrics.clear s).gauges = []
    ∧ (Metrics.clear s).histograms = []
    ∧ (Metrics.clear s).register = []
    ∧ (s.summaries.lookup n = some i →
        (Metrics.getSummary (Metrics.clear s) n).1 = some i) := by
  refine ⟨rfl, rfl, rfl, rfl, rfl, rfl, rfl, rfl, rfl, ?_⟩
  intro h
  simp [Metrics.clear, Metrics.getSummary, h]

/-- Witness for C9: a cached summary instance survives `clear()`. -/
theorem metricsClear_frame_witness :
    (Metrics.getSummary
      (Metrics.clear ⟨[], [], [], [], [], [], [], [("lat", ⟨7⟩)], ["lat"], 9⟩)
      "lat").1 = some ⟨7⟩ :=
  (metricsClear_frame ⟨[], [], [], [], [], [], [], [("lat", ⟨7⟩)], ["lat"], 9⟩
    "lat" ⟨7⟩).2.2.2.2.2.2.2.2.2 (by decide)

/-- Claim C7: every metric write path converts labels (dropping
`undefined`-valued keys, stringifying booleans) and then filters them down to
the metric's declared label names, dropping unknown keys silently; all five
write operations and both timer starters share this behaviour, and the
spec's concrete example records `flag="true"` and omits `ignore`. -/
theorem labelGovernance (allow : List String) (labels : List (String × LVal)) :
    (incrementCounterLabels allow labels).all (fun p => allow.contains p.1) = true
    ∧ setGaugeLabels allow labels = incrementCounterLabels allow labels
    ∧ observeHistogramLabels allow labels = incrementCounterLabels allow labels
    ∧ observeSummaryLabels allow labels = incrementCounterLabels allow labels
    ∧ startGaugeTimerLabels allow labels = incrementCounterLabels allow labels
    ∧ startSummaryTimerLabels allow labels = incrementCounterLabels allow labels
    ∧ incrementCounterLabels ["a", "b", "flag"]
        [("a", .str "X"), ("b", .num 2), ("flag", .bool true), ("ignore", .undefined)]
      = [("a", .str "X"), ("b", .num 2), ("flag", .str "true")] := by
  refine ⟨?_, rfl, rfl, rfl, rfl, rfl, by decide⟩
  unfold incrementCounterLabels filterAllowed
  by_cases h : allow.isEmpty = true
  · rw [if_pos h]
    rfl
  · rw [if_neg h, List.all_eq_true]
    intro p hp
    exact (List.mem_filter.mp hp).2

/-- The number of `span.end()` calls per invocation is exactly one when the
wrapper owns the span and zero otherwise. -/
theorem withTracingRun_countEnd {α : Type} (legacy shouldTrace : Bool)
    (mode : StartMode) (env : TracerEnv) (name : String) (attrs : AttrMap)
    (outcome : CallOutcome α) :
    (withTracingRun legacy shouldTrace mode env name attrs outcome).events.countP
        TEv.isEnd
      = if (withTracingRun legacy shouldTrace mode env name attrs outcome).created
        then 1 else 0 := by
  cases shouldTrace with
  | false => cases outcome <;> rfl
  | true =>
    cases hc : (getSpan env name (some { attributes := some attrs }) mode).1.createdSpan <;>
      cases outcome <;>
        simp [withTracingRun, hc, List.countP_cons, TEv.isEnd]

/-- Claim C3: a synchronous callable returning a non-thenable `x` wrapped by
`withTracing` returns exactly `x` synchronously in natural mode, and a
promise resolving to `x` in legacy mode, whatever the gating result and
start mode. -/
theorem withTracing_sync_roundtrip {α : Type} (shouldTrace : Bool)
    (mode : StartMode) (env : TracerEnv) (name : String) (attrs : AttrMap)
    (x : α) :
    (withTracingRun false shouldTrace mode env name attrs (.sync x)).result
        = .value x
    ∧ (withTracingRun true shouldTrace mode env name attrs (.sync x)).result
        = .promiseOk x := by
  cases shouldTrace <;> constructor <;> simp [withTracingRun]

/-- Counterexample to claim C4 as stated: with gating false under legacy
mode, a synchronous throw is raised, not returned as a rejected promise —
the untraced fast path runs `fn.apply` before the coercion line and outside
the `try` block. -/
theorem gatingFalse_counterexample :
    (withTracingRun (α := Nat) true false .reuse ⟨none, 0⟩ "s" []
        (.syncThrow ⟨some "RangeError", 0⟩)).result
      = .thrown ⟨some "RangeError", 0⟩
    ∧ (WrapResult.thrown (α := Nat) ⟨some "RangeError", 0⟩
        ≠ WrapResult.promiseErr ⟨some "RangeError", 0⟩) := by
  exact ⟨rfl, by decide⟩

/-- Claim C4 (amended): with gating false the predicate is evaluated exactly
once, before anything else; no span is obtained, touched or ended; the
original callable runs unwrapped; a successful sync result is coerced to a
promise in legacy mode and promises pass through — but a synchronous throw
propagates as a raised exception even in legacy mode. -/
theorem gatingFalse_amended {α : Type} (legacy : Bool) (mode : StartMode)
    (env : TracerEnv) (name : String) (attrs : AttrMap) :
    (∀ v : α,
      (withTracingRun legacy false mode env name attrs (.sync v)).events
          = [.predEval, .invokeFn, .outerSettled]
      ∧ (withTracingRun legacy false mode env name attrs (.sync v)).result
          = (if legacy then .promiseOk v else .value v)
      ∧ (withTracingRun legacy false mode env name attrs (.sync v)).created = false)
    ∧ (∀ e : JsErr,
      (withTracingRun (α := α) legacy false mode env name attrs (.syncThrow e)).events
          = [.predEval, .invokeFn, .outerSettled]
      ∧ (withTracingRun (α := α) legacy false mode env name attrs (.syncThrow e)).result
          = .thrown e
      ∧ (withTracingRun (α := α) legacy false mode env name attrs
          (.syncThrow e)).created = false)
    ∧ (∀ v : α,
      (withTracingRun legacy false mode env name attrs (.asyncOk v)).events
          = [.predEval, .invokeFn, .outerSettled]
      ∧ (withTracingRun legacy false mode env name attrs (.asyncOk v)).result
          = .promiseOk v
      ∧ (withTracingRun legacy false mode env name attrs (.asyncOk v)).created = false)
    ∧ (∀ e : JsErr,
      (withTracingRun (α := α) legacy false mode env name attrs (.asyncErr e)).events
          = [.predEval, .invokeFn, .outerSettled]
      ∧ (withTracingRun (α := α) legacy false mode env name attrs (.asyncErr e)).result
          = .promiseErr e
      ∧ (withTracingRun (α := α) legacy false mode env name attrs
          (.asyncErr e)).created = false) := by
  refine ⟨fun v => ⟨rfl, ?_, rfl⟩, fun e => ⟨rfl, rfl, rfl⟩,
    fun v => ⟨rfl, rfl, rfl⟩, fun e => ⟨rfl, rfl, rfl⟩⟩
  cases legacy <;> rfl

/-- Claim C1: with `startMode: 'reuse'` and an active span, `getSpan` returns
that span with `createdSpan = false` and the wrapper never calls `end()` on
it, on all settlement paths; in general `end()` happens at most once per
invocation and only when the invocation created the span. -/
theorem reuseNeverEnds {α : Type} (legacy shouldTrace : Bool) (mode : StartMode)
    (env : TracerEnv) (name : String) (attrs : AttrMap) (o : Option SpanOpts)
    (a : Span) (outcome : CallOutcome α) :
    (env.active = some a →
      (getSpan env name o .reuse).1 = ⟨a, false⟩
      ∧ (withTracingRun legacy true .reuse env name attrs outcome).events.countP
          TEv.isEnd = 0)
    ∧ (withTracingRun legacy shouldTrace mode env name attrs outcome).events.countP
        TEv.isEnd ≤ 1
    ∧ ((withTracingRun legacy shouldTrace mode env name attrs outcome).created
          = false →
      (withTracingRun legacy shouldTrace mode env name attrs outcome).events.countP
        TEv.isEnd = 0) := by
  refine ⟨?_, ?_, ?_⟩
  · intro ha
    constructor
    · simp [getSpan, getSpanWithOpts, ha]
    · rw [withTracingRun_countEnd]
      have hcr : (withTracingRun legacy true .reuse env name attrs outcome).created
          = false := by
        cases outcome <;> simp [withTracingRun, getSpan, getSpanWithOpts, ha]
      rw [hcr]
      rfl
  · rw [withTracingRun_countEnd]
    cases hcr : (withTracingRun legacy shouldTrace mode env name attrs outcome).created <;>
      simp
  · intro h0
    rw [withTracingRun_countEnd, h0]
    rfl

/-- Witness for C1 at a concrete environment with an active span. -/
theorem reuseNeverEnds_witness :
    (getSpan ⟨some ⟨"p", [], false, [], ⟨0, 1⟩⟩, 5⟩ "n" none .reuse).1
        = ⟨⟨"p", [], false, [], ⟨0, 1⟩⟩, false⟩
    ∧ (withTracingRun false true .reuse ⟨some ⟨"p", [], false, [], ⟨0, 1⟩⟩, 5⟩ "n" []
        (CallOutcome.sync (0 : Nat))).events.countP TEv.isEnd = 0 :=
  (reuseNeverEnds false true .reuse ⟨some ⟨"p", [], false, [], ⟨0, 1⟩⟩, 5⟩ "n" []
    none ⟨"p", [], false, [], ⟨0, 1⟩⟩ (CallOutcome.sync 0)).1 rfl

/-- Claim C2: within one invocation of any wrapped callable, settlement side
effects (`setStatus`, `recordException`; `error`-label assignment for
counters and histograms) happen before lifecycle release (`span.end()`;
timer stop; `counter.inc`), which happens before the wrapper's own returned
value/promise settles — for the tracing wrapper, the counter wrapper and the
gauge, histogram and summary (timer) wrappers alike, on every path; the
untimed numeric metric write of gauge/summary wrappers also precedes
settlement. -/
theorem settlementOrdering {α : Type} (legacy shouldTrace timed : Bool)
    (mode : StartMode) (env : TracerEnv) (name : String)
    (attrs staticL dynL : AttrMap) (isNumber : α → Bool)
    (outcome : CallOutcome α) :
    allBefore TEv.isSideEffect TEv.isEnd
        (withTracingRun legacy shouldTrace mode env name attrs outcome).events = true
    ∧ allBefore TEv.isEnd TEv.isSettled
        (withTracingRun legacy shouldTrace mode env name attrs outcome).events = true
    ∧ allBefore TEv.isSideEffect TEv.isSettled
        (withTracingRun legacy shouldTrace mode env name attrs outcome).events = true
    ∧ allBefore MEv.isLabelSet MEv.isInc
        (wrapWithCounterRun staticL dynL outcome).events = true
    ∧ allBefore MEv.isInc MEv.isSettled
        (wrapWithCounterRun staticL dynL outcome).events = true
    ∧ allBefore GEv.isLabelSet GEv.isStop
        (wrapWithGaugeRun timed isNumber staticL dynL outcome).2 = true
    ∧ allBefore GEv.isStop GEv.isSettled
        (wrapWithGaugeRun timed isNumber staticL dynL outcome).2 = true
    ∧ allBefore GEv.isWrite GEv.isSettled
        (wrapWithGaugeRun timed isNumber staticL dynL outcome).2 = true
    ∧ allBefore GEv.isLabelSet GEv.isStop
        (wrapWithHistogramRun staticL dynL outcome).2 = true
    ∧ allBefore GEv.isStop GEv.isSettled
        (wrapWithHistogramRun staticL dynL outcome).2 = true
    ∧ allBefore GEv.isLabelSet GEv.isSettled
        (wrapWithHistogramRun staticL dynL outcome).2 = true
    ∧ allBefore GEv.isLabelSet GEv.isStop
        (wrapWithSummaryRun timed isNumber staticL dynL outcome).2 = true
    ∧ allBefore GEv.isStop GEv.isSettled
        (wrapWithSummaryRun timed isNumber staticL dynL outcome).2 = true
    ∧ allBefore GEv.isWrite GEv.isSettled
        (wrapWithSummaryRun timed isNumber staticL dynL outcome).2 = true := by
  refine ⟨?_, ?_, ?_, ?_, ?_, ?_, ?_, ?_, ?_, ?_, ?_, ?_, ?_, ?_⟩
  · cases shouldTrace with
    | false => cases outcome <;> rfl
    | true =>
      cases hc : (getSpan env name (some { attributes := some attrs }) mode).1.createdSpan <;>
        cases outcome <;> simp [withTracingRun, hc] <;> rfl
  · cases shouldTrace with
    | false => cases outcome <;> rfl
    | true =>
      cases hc : (getSpan env name (some { attributes := some attrs }) mode).1.createdSpan <;>
        cases outcome <;> simp [withTracingRun, hc] <;> rfl
  · cases shouldTrace with
    | false => cases outcome <;> rfl
    | true =>
      cases hc : (getSpan env name (some { attributes := some attrs }) mode).1.createdSpan <;>
        cases outcome <;> simp [withTracingRun, hc] <;> rfl
  · cases outcome <;> rfl
  · cases outcome <;> rfl
  · cases outcome with
    | sync v =>
      cases timed <;> cases hn : isNumber v <;> simp [wrapWithGaugeRun, hn, allBefore, GEv.isStop, GEv.isLabelSet,
          GEv.isWrite, GEv.isSettled]
    | syncThrow e => cases timed <;> rfl
    | asyncOk v =>
      cases timed <;> cases hn : isNumber v <;> simp [wrapWithGaugeRun, hn, allBefore, GEv.isStop, GEv.isLabelSet,
          GEv.isWrite, GEv.isSettled]
    | asyncErr e => cases timed <;> rfl
  · cases outcome with
    | sync v =>
      cases timed <;> cases hn : isNumber v <;> simp [wrapWithGaugeRun, hn, allBefore, GEv.isStop, GEv.isLabelSet,
          GEv.isWrite, GEv.isSettled]
    | syncThrow e => cases timed <;> rfl
    | asyncOk v =>
      cases timed <;> cases hn : isNumber v <;> simp [wrapWithGaugeRun, hn, allBefore, GEv.isStop, GEv.isLabelSet,
          GEv.isWrite, GEv.isSettled]
    | asyncErr e => cases timed <;> rfl
  · cases outcome with
    | sync v =>
      cases timed <;> cases hn : isNumber v <;> simp [wrapWithGaugeRun, hn, allBefore, GEv.isStop, GEv.isLabelSet,
          GEv.isWrite, GEv.isSettled]
    | syncThrow e => cases timed <;> rfl
    | asyncOk v =>
      cases timed <;> cases hn : isNumber v <;> simp [wrapWithGaugeRun, hn, allBefore, GEv.isStop, GEv.isLabelSet,
          GEv.isWrite, GEv.isSettled]
    | asyncErr e => cases timed <;> rfl
  · cases outcome <;> rfl
  · cases outcome <;> rfl
  · cases outcome <;> rfl
  · cases outcome with
    | sync v =>
      cases timed <;> cases hn : isNumber v <;> simp [wrapWithSummaryRun, hn, allBefore, GEv.isStop, GEv.isLabelSet,
          GEv.isWrite, GEv.isSettled]
    | syncThrow e => cases timed <;> rfl
    | asyncOk v =>
      cases timed <;> cases hn : isNumber v <;> simp [wrapWithSummaryRun, hn, allBefore, GEv.isStop, GEv.isLabelSet,
          GEv.isWrite, GEv.isSettled]
    | asyncErr e => cases timed <;> rfl
  · cases outcome with
    | sync v =>
      cases timed <;> cases hn : isNumber v <;> simp [wrapWithSummaryRun, hn, allBefore, GEv.isStop, GEv.isLabelSet,
          GEv.isWrite, GEv.isSettled]
    | syncThrow e => cases timed <;> rfl
    | asyncOk v =>
      cases timed <;> cases hn : isNumber v <;> simp [wrapWithSummaryRun, hn, allBefore, GEv.isStop, GEv.isLabelSet,
          GEv.isWrite, GEv.isSettled]
    | asyncErr e => cases timed <;> rfl
  · cases outcome with
    | sync v =>
      cases timed <;> cases hn : isNumber v <;> simp [wrapWithSummaryRun, hn, allBefore, GEv.isStop, GEv.isLabelSet,
          GEv.isWrite, GEv.isSettled]
    | syncThrow e => cases timed <;> rfl
    | asyncOk v =>
      cases timed <;> cases hn : isNumber v <;> simp [wrapWithSummaryRun, hn, allBefore, GEv.isStop, GEv.isLabelSet,
          GEv.isWrite, GEv.isSettled]
    | asyncErr e => cases timed <;> rfl

/-- Claim C6: each settled call of a counter-wrapped callable records exactly
one increment whose `error` label is `"none"` on success and the thrown
error's non-empty name (else `"unknown_error"`) on failure, and the original
value or error is propagated to the caller unchanged. -/
theorem counterIncrement {α : Type} (staticL dynL : AttrMap) :
    (∀ v : α,
      (wrapWithCounterRun staticL dynL (.sync v)).events.countP MEv.isInc = 1
      ∧ getAttr (firstIncLabels (wrapWithCounterRun staticL dynL (.sync v)).events)
          "error" = .str "none"
      ∧ (wrapWithCounterRun staticL dynL (.sync v)).result = .value v)
    ∧ (∀ v : α,
      (wrapWithCounterRun staticL dynL (.asyncOk v)).events.countP MEv.isInc = 1
      ∧ getAttr (firstIncLabels (wrapWithCounterRun staticL dynL (.asyncOk v)).events)
          "error" = .str "none"
      ∧ (wrapWithCounterRun staticL dynL (.asyncOk v)).result = .promiseOk v)
    ∧ (∀ e : JsErr,
      (wrapWithCounterRun (α := α) staticL dynL (.syncThrow e)).events.countP
          MEv.isInc = 1
      ∧ getAttr (firstIncLabels
          (wrapWithCounterRun (α := α) staticL dynL (.syncThrow e)).events) "error"
          = .str (if e.name.getD "" = "" then "unknown_error" else e.name.getD "")
      ∧ (wrapWithCounterRun (α := α) staticL dynL (.syncThrow e)).result = .thrown e)
    ∧ (∀ e : JsErr,
      (wrapWithCounterRun (α := α) staticL dynL (.asyncErr e)).events.countP
          MEv.isInc = 1
      ∧ getAttr (firstIncLabels
          (wrapWithCounterRun (α := α) staticL dynL (.asyncErr e)).events) "error"
          = .str (if e.name.getD "" = "" then "unknown_error" else e.name.getD "")
      ∧ (wrapWithCounterRun (α := α) staticL dynL (.asyncErr e)).result
          = .promiseErr e) := by
  have herr : ∀ e : JsErr, errLabel e
      = (if e.name.getD "" = "" then "unknown_error" else e.name.getD "") := by
    intro e
    unfold errLabel
    cases hn : e.name with
    | none => simp
    | some n => by_cases h : n = "" <;> simp [h]
  refine ⟨fun v => ⟨rfl, ?_, rfl⟩, fun v => ⟨rfl, ?_, rfl⟩,
    fun e => ⟨rfl, ?_, rfl⟩, fun e => ⟨rfl, ?_, rfl⟩⟩
  · simp [wrapWithCounterRun, firstIncLabels, getAttr_setAttr_self]
  · simp [wrapWithCounterRun, firstIncLabels, getAttr_setAttr_self]
  · simp [wrapWithCounterRun, firstIncLabels, getAttr_setAttr_self, herr]
  · simp [wrapWithCounterRun, firstIncLabels, getAttr_setAttr_self, herr]

/-- Applying `_setSamplingRule` to an existing options object returns the same
reference and writes the sampling key through it. -/
theorem setSamplingRuleH_mutates (st : Store) (r : Nat)
    (h : keepUnsetB st r = true) :
    (setSamplingRuleH st (some r)).1 = r
    ∧ readKeep st r = .undefined
    ∧ readKeep (setSamplingRuleH st (some r)).2 r = .bool false := by
  unfold keepUnsetB at h
  rw [Bool.and_eq_true] at h
  have hr : r < st.opts.length := of_decide_eq_true h.1
  have hrest := h.2
  cases hattr : (readOpt st r).attributesRef with
  | none =>
    refine ⟨?_, ?_, ?_⟩
    · simp [setSamplingRuleH, hattr, readAttrs, listGet_append_self, getAttr,
        List.lookup, LVal.truthy]
    · simp [readKeep, hattr]
    · simp only [setSamplingRuleH, hattr]
      simp only [readAttrs, listGet_append_self]
      simp only [getAttr, List.lookup, LVal.truthy]
      simp [readKeep, readOpt, listGet_listSet_self _ _ _ _ hr, listSet_append_self,
        readAttrs, listGet_append_self, getAttr_setAttr_self]
  | some a =>
    rw [hattr] at hrest
    rw [Bool.and_eq_true] at hrest
    have ha : a < st.attrs.length := of_decide_eq_true hrest.1
    have hku : getAttr (readAttrs st a) samplingKey = .undefined :=
      of_decide_eq_true hrest.2
    refine ⟨?_, ?_, ?_⟩
    · simp [setSamplingRuleH, hattr, hku, LVal.truthy]
    · simp [readKeep, hattr, hku]
    · simp only [setSamplingRuleH, hattr]
      simp only [readAttrs] at hku
      simp only [readOpt] at hattr
      simp [hku, LVal.truthy, readKeep, readOpt, readAttrs, hattr,
        listGet_listSet_self _ _ _ _ ha, getAttr_setAttr_self]

/-- Claim C10: `getSpan` and `getCurrentSpanOrCreateNew` mutate a supplied
options object in place: `_setSamplingRule` returns the caller's own object
(same reference) and, when the sampling key was absent through it, the key
is observably present (as `false`) through the caller's reference after
either call — the caller's objects are changed, not copies. -/
theorem inPlaceMutation (st : Store) (env : TracerEnv) (name : String)
    (r : Nat) (mode : StartMode) (createNew : Bool)
    (h : keepUnsetB st r = true) :
    readKeep st r = .undefined
    ∧ (setSamplingRuleH st (some r)).1 = r
    ∧ readKeep (getSpanH st env name (some r) mode).2.2 r = .bool false
    ∧ readKeep (getSpanH st env name (some r) mode).2.2 r ≠ readKeep st r
    ∧ readKeep (getCurrentSpanOrCreateNewH st env name (some r) createNew).2.2 r
        = .bool false := by
  obtain ⟨h1, h2, h3⟩ := setSamplingRuleH_mutates st r h
  have hG : (getSpanH st env name (some r) mode).2.2
      = (setSamplingRuleH st (some r)).2 := by
    simp [getSpanH]
  have hC : (getCurrentSpanOrCreateNewH st env name (some r) createNew).2.2
      = (setSamplingRuleH st (some r)).2 := by
    cases ha : env.active <;> cases createNew <;>
      simp [getCurrentSpanOrCreateNewH, ha]
  refine ⟨h2, h1, ?_, ?_, ?_⟩
  · rw [hG]; exact h3
  · rw [hG, h3, h2]; decide
  · rw [hC]; exact h3

/-- Witness for C10 at a one-object store whose options lack attributes. -/
theorem inPlaceMutation_witness :
    readKeep (getSpanH ⟨[⟨none, false, []⟩], []⟩ ⟨none, 0⟩ "w" (some 0)
        .reuse).2.2 0 = .bool false :=
  (inPlaceMutation ⟨[⟨none, false, []⟩], []⟩ ⟨none, 0⟩ "w" 0 .reuse false
    (by decide)).2.2.1

end Telemetry
